import Mathlib

/-!
# Eunoia / MoodLogger — verification of the scoring and synchronization model

Shallow embedding of the core of the MoodLogger repository:

* the Score Model (`calculateOverallScores` of `src/lib/storage.ts`, both the
  clamping variant and the round-then-clamp variant, and
  `calculateMoodFromOverallScores` of `src/app/page.tsx`);
* the Entry Store (`getAllEntries`, `getDailyEntry`, `saveDailyEntry` of
  `src/lib/storage.ts`, variant 1, and the async variant 3 built on
  `validateAndCompleteEntry` and `saveEntryToFirestore`);
* the Tabular Exporter (`exportToGoogleSheets` of
  `src/actions/export-to-google-sheets.ts`).

JavaScript numbers are modelled as `ℚ` (all values occurring in the model are
small dyadic/decimal rationals on which double arithmetic is exact); JS objects
with possibly-missing keys are modelled as `Option`-valued functions; sheets
are lists of rows of the strings Google Sheets stores and returns.
-/

namespace Eunoia

/-- The seven themes, in the fixed order of `themeOrder` in
`src/components/theme-assessment.tsx`. -/
inductive Theme
  | dreaming
  | moodScore
  | training
  | diet
  | socialRelations
  | familyRelations
  | selfEducation
  deriving DecidableEq, Repr

/-- `themeOrder` from `src/components/theme-assessment.tsx`. -/
def themeOrder : List Theme :=
  [.dreaming, .moodScore, .training, .diet, .socialRelations, .familyRelations, .selfEducation]

/-- The `Mood` union type of `src/lib/types.ts` minus `null`
(`null` is `none` of an `Option Mood`). -/
inductive Mood
  | happy
  | sad
  | neutral
  | angry
  deriving DecidableEq, Repr

/-- A theme's question-score object: JS object indexed by number, each index
possibly absent (`ThemeQuestionScores` of `src/lib/types.ts`). -/
def ThemeQuestionScores : Type := ℕ → Option ℚ

/-- A raw `detailedScores` object: each theme key possibly absent. -/
def RawDetailedScores : Type := Theme → Option ThemeQuestionScores

/-- A raw `scores` object: each theme key possibly absent. -/
def RawThemeScores : Type := Theme → Option ℚ

/-- `Math.max(-2, Math.min(2, x))`. -/
def clamp (x : ℚ) : ℚ := max (-2) (min 2 x)

/-- `parseFloat(x.toFixed(2))`: round to 2 decimal places. -/
def roundTo2 (x : ℚ) : ℚ := (round (x * 100) : ℤ) / 100

/-- The per-theme summation loop of `calculateOverallScores`:
`for (i = 0; i < 8; i++) sum += themeQuestions[i] ?? 0`. -/
def sumSlots (q : ThemeQuestionScores) : ℚ :=
  (List.range 8).foldl (fun acc i => acc + (q i).getD 0) 0

/-- `calculateOverallScores` of `src/lib/storage.ts` (variant 1, lines 202–216):
per theme, sum the 8 question scores (missing theme → 0, missing slot → 0) and
clamp to `[-2, 2]`.  This variant does not round. -/
def calculateOverallScores (detailedScores : RawDetailedScores) (theme : Theme) : ℚ :=
  match detailedScores theme with
  | none => clamp 0
  | some q => clamp (sumSlots q)

/-- `calculateOverallScores` of `src/lib/storage.ts` (variant 3, lines 447–460):
same sum, then `Math.max(-2, Math.min(2, parseFloat(sum.toFixed(2))))`. -/
def calculateOverallScoresV3 (detailedScores : RawDetailedScores) (theme : Theme) : ℚ :=
  match detailedScores theme with
  | none => clamp (roundTo2 0)
  | some q => clamp (roundTo2 (sumSlots q))

/-- A detailed-scores mapping is well typed when every populated slot holds one
of the three legal `QuestionScore` values `-0.25`, `0`, `0.25`
(`src/lib/types.ts`). -/
def WellTypedDetailed (d : RawDetailedScores) : Prop :=
  ∀ t q i x, d t = some q → q i = some x → x = -(1/4) ∨ x = 0 ∨ x = 1/4

/-- The exact (unclamped, unrounded) per-theme sum, for stating claims. -/
def rawThemeSum (d : RawDetailedScores) (theme : Theme) : ℚ :=
  match d theme with
  | none => 0
  | some q => sumSlots q

/-- The three-way calculated-mood category of `src/app/page.tsx`
(`'Bad' | 'Normal' | 'Good' | 'Calculating...'`). -/
inductive MoodLabel
  | Bad
  | Normal
  | Good
  | Calculating
  deriving DecidableEq, Repr

/-- `CalculatedMoodState` of `src/app/page.tsx` (the icon is display-only and
determined by the label, so it is not modelled). -/
structure CalculatedMoodState where
  label : MoodLabel
  totalScore : Option ℚ
  deriving DecidableEq, Repr

/-- `calculateMoodFromOverallScores` of `src/app/page.tsx` (lines 288–299):
`undefined` scores give `Calculating`; otherwise sum over the keys present in
the scores object, divide by their count (guarded against zero), and compare
the average against the fixed thresholds `-0.75` / `+0.75` (inclusive). -/
def calculateMoodFromOverallScores (scores : Option RawThemeScores) : CalculatedMoodState :=
  match scores with
  | none => ⟨.Calculating, none⟩
  | some s =>
    let themeKeys := themeOrder.filter (fun t => (s t).isSome)
    let sum := themeKeys.foldl (fun acc k => acc + (s k).getD 0) 0
    let count := themeKeys.length
    let average := if 0 < count then sum / (count : ℚ) else 0
    if average ≤ -(3/4) then ⟨.Bad, some (roundTo2 sum)⟩
    else if (3/4) ≤ average then ⟨.Good, some (roundTo2 sum)⟩
    else ⟨.Normal, some (roundTo2 sum)⟩

/-- The sum of the 7 per-theme totals of a fully-populated scores object. -/
def themeOrderSum (f : Theme → ℚ) : ℚ :=
  themeOrder.foldl (fun acc t => acc + f t) 0

/-! ## Arithmetic helper lemmas -/

lemma clamp_of_mem (x : ℚ) (h1 : -2 ≤ x) (h2 : x ≤ 2) : clamp x = x := by
  unfold clamp
  rw [min_eq_right h2, max_eq_right h1]

lemma roundTo2_quarters (k : ℤ) : roundTo2 ((k : ℚ) / 4) = (k : ℚ) / 4 := by
  unfold roundTo2
  have h : ((k : ℚ) / 4) * 100 = ((25 * k : ℤ) : ℚ) := by push_cast; ring
  rw [h, round_intCast]
  push_cast; ring

lemma roundTo2_zero : roundTo2 0 = 0 := by
  have := roundTo2_quarters 0
  simpa using this

/-- Sum of the first `n` slots of a well-typed slot map is `k/4` with `|k| ≤ n`. -/
lemma sumRange_quarters (q : ThemeQuestionScores)
    (hq : ∀ i x, q i = some x → x = -(1/4) ∨ x = 0 ∨ x = 1/4) (n : ℕ) :
    ∃ k : ℤ, (List.range n).foldl (fun acc i => acc + (q i).getD 0) 0 = (k : ℚ) / 4 ∧
      -(n : ℤ) ≤ k ∧ k ≤ n := by
  induction n with
  | zero => exact ⟨0, by simp, by simp, by simp⟩
  | succ n ih =>
    obtain ⟨k, hk, h1, h2⟩ := ih
    have hx : (q n).getD 0 = -(1/4) ∨ (q n).getD 0 = 0 ∨ (q n).getD 0 = 1/4 := by
      cases hqn : q n with
      | none => simp
      | some x => simpa using hq n x hqn
    rw [List.range_succ, List.foldl_append, List.foldl_cons, List.foldl_nil, hk]
    rcases hx with h | h | h
    · refine ⟨k - 1, ?_, by omega, by omega⟩
      rw [h]; push_cast; ring
    · refine ⟨k, ?_, by omega, by omega⟩
      rw [h]; ring
    · refine ⟨k + 1, ?_, by omega, by omega⟩
      rw [h]; push_cast; ring

lemma sumSlots_quarters (q : ThemeQuestionScores)
    (hq : ∀ i x, q i = some x → x = -(1/4) ∨ x = 0 ∨ x = 1/4) :
    ∃ k : ℤ, sumSlots q = (k : ℚ) / 4 ∧ -8 ≤ k ∧ k ≤ 8 := by
  obtain ⟨k, hk, h1, h2⟩ := sumRange_quarters q hq 8
  exact ⟨k, hk, by exact_mod_cast h1, by exact_mod_cast h2⟩

/-! ## C1 — per-theme totals -/

/-- C1: for every (well-typed) `detailedScores` mapping and every theme, the
derived theme total of `calculateOverallScores` — in both source variants —
equals the sum of that theme's 8 slot values with missing slots treated as 0,
which coincides with that sum clamped to `[-2, 2]` and rounded to 2 decimals,
lies in `[-2, 2]`, and is `0` for an absent or empty slot map. -/
theorem calculateOverallScores_spec (d : RawDetailedScores) (hd : WellTypedDetailed d)
    (theme : Theme) :
    calculateOverallScores d theme = rawThemeSum d theme ∧
    calculateOverallScoresV3 d theme = rawThemeSum d theme ∧
    calculateOverallScores d theme = roundTo2 (clamp (rawThemeSum d theme)) ∧
    -2 ≤ calculateOverallScores d theme ∧ calculateOverallScores d theme ≤ 2 ∧
    (d theme = none → calculateOverallScores d theme = 0) ∧
    (d theme = some (fun _ => none) → calculateOverallScores d theme = 0) := by
  have hmain : ∀ q, d theme = some q →
      sumSlots q = rawThemeSum d theme ∧ -2 ≤ sumSlots q ∧ sumSlots q ≤ 2 ∧
      roundTo2 (sumSlots q) = sumSlots q := by
    intro q hq
    obtain ⟨k, hk, h1, h2⟩ := sumSlots_quarters q (fun i x hx => hd theme q i x hq hx)
    have hlo : -2 ≤ sumSlots q := by
      rw [hk]
      have : (-8 : ℚ) ≤ (k : ℚ) := by exact_mod_cast h1
      linarith
    have hhi : sumSlots q ≤ 2 := by
      rw [hk]
      have : (k : ℚ) ≤ 8 := by exact_mod_cast h2
      linarith
    refine ⟨?_, hlo, hhi, ?_⟩
    · rw [rawThemeSum, hq]
    · rw [hk, roundTo2_quarters]
  cases hdt : d theme with
  | none =>
    have hraw : rawThemeSum d theme = 0 := by rw [rawThemeSum, hdt]
    have hv1 : calculateOverallScores d theme = 0 := by
      have h0 : calculateOverallScores d theme = clamp 0 := by
        rw [calculateOverallScores, hdt]
      rw [h0, clamp_of_mem 0 (by norm_num) (by norm_num)]
    have hv3 : calculateOverallScoresV3 d theme = 0 := by
      have h0 : calculateOverallScoresV3 d theme = clamp (roundTo2 0) := by
        rw [calculateOverallScoresV3, hdt]
      rw [h0, roundTo2_zero, clamp_of_mem 0 (by norm_num) (by norm_num)]
    refine ⟨by rw [hv1, hraw], by rw [hv3, hraw], ?_, by rw [hv1]; norm_num,
      by rw [hv1]; norm_num, fun _ => hv1, fun _ => hv1⟩
    rw [hv1, hraw, clamp_of_mem 0 (by norm_num) (by norm_num), roundTo2_zero]
  | some q =>
    obtain ⟨hsum, hlo, hhi, hround⟩ := hmain q hdt
    have hv1 : calculateOverallScores d theme = sumSlots q := by
      have h0 : calculateOverallScores d theme = clamp (sumSlots q) := by
        rw [calculateOverallScores, hdt]
      rw [h0, clamp_of_mem _ hlo hhi]
    have hv3 : calculateOverallScoresV3 d theme = sumSlots q := by
      have h0 : calculateOverallScoresV3 d theme = clamp (roundTo2 (sumSlots q)) := by
        rw [calculateOverallScoresV3, hdt]
      rw [h0, hround, clamp_of_mem _ hlo hhi]
    refine ⟨by rw [hv1, hsum], by rw [hv3, hsum], ?_, by rw [hv1]; exact hlo,
      by rw [hv1]; exact hhi, fun h => Option.noConfusion h, ?_⟩
    · rw [hv1, hsum, ← hsum, clamp_of_mem _ hlo hhi, hround]
    · intro h
      have hqe : q = fun _ => none := by
        injection h
      have hzero : sumSlots q = 0 := by
        rw [hqe]
        norm_num [sumSlots, List.range_succ]
      rw [hv1, hzero]

/-- C1 witness: a mapping with every slot `Positive = 0.25` has every theme
total equal to `2`. -/
theorem calculateOverallScores_spec_witness :
    WellTypedDetailed (fun _ => some (fun _ => some (1/4))) ∧
    calculateOverallScores (fun _ => some (fun _ => some (1/4))) Theme.dreaming = 2 ∧
    rawThemeSum (fun _ => some (fun _ => some (1/4))) Theme.dreaming = 2 := by
  have hwt : WellTypedDetailed (fun _ => some (fun _ => some (1/4))) := by
    intro t q i x hq hx
    injection hq with hq'
    rw [← hq'] at hx
    injection hx with hx'
    right; right
    exact hx'.symm
  have hraw : rawThemeSum (fun _ => some (fun _ => some (1/4))) Theme.dreaming = 2 := by
    norm_num [rawThemeSum, sumSlots, List.range_succ]
  have h := (calculateOverallScores_spec (fun _ => some (fun _ => some (1/4))) hwt
    Theme.dreaming).1
  exact ⟨hwt, by rw [h, hraw], hraw⟩

/-! ## C2 / C10 — overall mood -/

lemma calculateMood_some (s : RawThemeScores) :
    calculateMoodFromOverallScores (some s) =
      (if (if 0 < (themeOrder.filter (fun t => (s t).isSome)).length then
            ((themeOrder.filter (fun t => (s t).isSome)).foldl
              (fun acc k => acc + (s k).getD 0) 0) /
              (((themeOrder.filter (fun t => (s t).isSome)).length : ℚ)) else 0) ≤ -(3/4) then
        ⟨.Bad, some (roundTo2 ((themeOrder.filter (fun t => (s t).isSome)).foldl
          (fun acc k => acc + (s k).getD 0) 0))⟩
      else if (3/4) ≤ (if 0 < (themeOrder.filter (fun t => (s t).isSome)).length then
            ((themeOrder.filter (fun t => (s t).isSome)).foldl
              (fun acc k => acc + (s k).getD 0) 0) /
              (((themeOrder.filter (fun t => (s t).isSome)).length : ℚ)) else 0) then
        ⟨.Good, some (roundTo2 ((themeOrder.filter (fun t => (s t).isSome)).foldl
          (fun acc k => acc + (s k).getD 0) 0))⟩
      else
        ⟨.Normal, some (roundTo2 ((themeOrder.filter (fun t => (s t).isSome)).foldl
          (fun acc k => acc + (s k).getD 0) 0))⟩) := rfl

/-- C2: on a fully-populated scores object the overall mood uses
`average = sum / 7` with inclusive thresholds: `average ≤ -0.75` gives `Bad`,
`average ≥ 0.75` gives `Good`, anything strictly between gives `Normal`, and
the returned total score is the sum rounded to 2 decimals. -/
theorem calculateMood_full_spec (f : Theme → ℚ) :
    (themeOrderSum f / 7 ≤ -(3/4) →
      calculateMoodFromOverallScores (some (fun t => some (f t)))
        = ⟨.Bad, some (roundTo2 (themeOrderSum f))⟩) ∧
    ((3/4) ≤ themeOrderSum f / 7 →
      calculateMoodFromOverallScores (some (fun t => some (f t)))
        = ⟨.Good, some (roundTo2 (themeOrderSum f))⟩) ∧
    (-(3/4) < themeOrderSum f / 7 → themeOrderSum f / 7 < 3/4 →
      calculateMoodFromOverallScores (some (fun t => some (f t)))
        = ⟨.Normal, some (roundTo2 (themeOrderSum f))⟩) := by
  have hred : calculateMoodFromOverallScores (some (fun t => some (f t))) =
      (if themeOrderSum f / 7 ≤ -(3/4) then ⟨.Bad, some (roundTo2 (themeOrderSum f))⟩
       else if (3/4) ≤ themeOrderSum f / 7 then ⟨.Good, some (roundTo2 (themeOrderSum f))⟩
       else ⟨.Normal, some (roundTo2 (themeOrderSum f))⟩) := by
    rw [calculateMood_some]
    norm_num [themeOrder, themeOrderSum]
  rw [hred]
  refine ⟨fun h1 => ?_, fun h2 => ?_, fun h3 h4 => ?_⟩
  · rw [if_pos h1]
  · rw [if_neg (by linarith), if_pos h2]
  · rw [if_neg (by linarith), if_neg (by linarith)]

/-- C2 witness: all seven totals equal to `-0.75` give average exactly `-0.75`,
which lands on `Bad` (inclusive boundary); the total is `-5.25`. -/
theorem calculateMood_full_spec_witness :
    calculateMoodFromOverallScores (some (fun _ => some (-(3/4))))
      = ⟨.Bad, some (-(21/4))⟩ := by
  have hsum : themeOrderSum (fun _ => -(3/4)) = -(21/4) := by
    norm_num [themeOrderSum, themeOrder]
  have h := (calculateMood_full_spec (fun _ => -(3/4))).1 (by rw [hsum]; norm_num)
  rw [h, hsum]
  have hr : roundTo2 (-(21/4)) = -(21/4) := by
    have h21 := roundTo2_quarters (-21)
    push_cast at h21
    have he : (-(21/4) : ℚ) = -21/4 := by norm_num
    rw [he]
    exact h21
  rw [hr]

/-- C10: `calculateMoodFromOverallScores` is total and never divides by zero:
the divisor is the number of keys actually present in the scores object (not
the constant 7), a zero-key object takes the guarded branch and yields
`Normal` with total score 0, and for any non-empty key set the `Bad` / `Good`
labels are decided by `sum / count` over the present keys only. -/
theorem calculateMood_partial_spec (s : RawThemeScores) :
    ((∀ t, s t = none) → calculateMoodFromOverallScores (some s) = ⟨.Normal, some 0⟩) ∧
    (themeOrder.filter (fun t => (s t).isSome) ≠ [] →
      (((calculateMoodFromOverallScores (some s)).label = .Bad ↔
        ((themeOrder.filter (fun t => (s t).isSome)).foldl
            (fun acc k => acc + (s k).getD 0) 0) /
          ((themeOrder.filter (fun t => (s t).isSome)).length : ℚ) ≤ -(3/4)) ∧
       ((calculateMoodFromOverallScores (some s)).label = .Good ↔
        (3/4) ≤ ((themeOrder.filter (fun t => (s t).isSome)).foldl
            (fun acc k => acc + (s k).getD 0) 0) /
          ((themeOrder.filter (fun t => (s t).isSome)).length : ℚ)))) := by
  constructor
  · intro hnone
    have hfil : themeOrder.filter (fun t => (s t).isSome) = [] := by
      simp [List.filter_eq_nil_iff, hnone]
    rw [calculateMood_some, hfil]
    norm_num [roundTo2_zero]
  · intro hne
    have hpos : 0 < (themeOrder.filter (fun t => (s t).isSome)).length :=
      List.length_pos.mpr hne
    set sum := (themeOrder.filter (fun t => (s t).isSome)).foldl
      (fun acc k => acc + (s k).getD 0) 0 with hsum
    set cnt := (themeOrder.filter (fun t => (s t).isSome)).length with hcnt
    have havg : (if 0 < cnt then sum / (cnt : ℚ) else 0) = sum / (cnt : ℚ) :=
      if_pos hpos
    rw [calculateMood_some, ← hsum, ← hcnt, havg]
    by_cases h1 : sum / (cnt : ℚ) ≤ -(3/4)
    · rw [if_pos h1]
      refine ⟨⟨fun _ => h1, fun _ => rfl⟩, ?_, ?_⟩
      · intro h
        cases h
      · intro h
        linarith
    · rw [if_neg h1]
      by_cases h2 : (3/4) ≤ sum / (cnt : ℚ)
      · rw [if_pos h2]
        refine ⟨⟨?_, fun h => absurd h h1⟩, fun _ => h2, fun _ => rfl⟩
        intro h
        cases h
      · rw [if_neg h2]
        refine ⟨⟨?_, fun h => absurd h h1⟩, ?_, fun h => absurd h h2⟩
        · intro h
          cases h
        · intro h
          cases h

/-- C10 witness: an empty scores object yields `Normal` with total 0, and an
object carrying the single key `dreaming = -1` is averaged over 1 key
(`-1 ≤ -0.75` gives `Bad`; averaging over the constant 7 would have given
`Normal`). -/
theorem calculateMood_partial_spec_witness :
    calculateMoodFromOverallScores (some (fun _ => none)) = ⟨.Normal, some 0⟩ ∧
    (calculateMoodFromOverallScores
      (some (fun t => if t = Theme.dreaming then some (-1) else none))).label = .Bad := by
  constructor
  · exact (calculateMood_partial_spec (fun _ => none)).1 (fun _ => rfl)
  · have hfil : themeOrder.filter
        (fun t => ((fun t => if t = Theme.dreaming then some (-1 : ℚ) else none) t).isSome)
        = [Theme.dreaming] := by
      decide
    refine (((calculateMood_partial_spec
      (fun t => if t = Theme.dreaming then some (-1) else none)).2
      (by rw [hfil]; simp)).1).mpr ?_
    rw [hfil]
    norm_num

/-! ## Entry Store — data model -/

/-- A raw stored daily-entry record as it sits in the localStorage JSON blob:
any field may be absent. For `mood` the outer `Option` is JS `undefined`
(key absent) and the inner one is JS `null`. -/
structure RawEntry where
  date : Option String
  mood : Option (Option Mood)
  scores : Option RawThemeScores
  detailedScores : Option RawDetailedScores

/-- `StoredData` of `src/lib/types.ts`: date string → entry. -/
def StoredData : Type := String → Option RawEntry

/-- A question-score object with no keys at all (`{}`). -/
def emptySlots : ThemeQuestionScores := fun _ => none

/-- Slot completion: spreading over the per-theme defaults and then
`for (i = 0; i < 8; i++) if (q[i] === undefined) q[i] = 0` — slots 0–7 get
the default 0 when missing, every other key is left untouched. -/
def migrateSlots (q : ThemeQuestionScores) : ThemeQuestionScores :=
  fun i => if i < 8 then some ((q i).getD 0) else q i

/-- `createDefaultDetailedScores` of `src/lib/storage.ts`: all 7 themes
present, slots 0–7 all `0`. -/
def createDefaultDetailedScores : RawDetailedScores :=
  fun _ => some (fun i => if i < 8 then some 0 else none)

/-- `createDefaultThemeScores` of `src/lib/storage.ts`: every theme total 0. -/
def createDefaultThemeScores : RawThemeScores := fun _ => some 0

/-- The per-record migration/validation loop inside `getAllEntries`
(variant 1, lines 52–85): an absent `detailedScores` is replaced by the full
default, otherwise missing themes and missing slots 0–7 are filled with 0;
an absent `scores` is replaced by the all-zero default, otherwise missing
theme totals are filled with 0; an absent `mood` becomes `null`. The `date`
field is not touched. -/
def migrateEntry (e : RawEntry) : RawEntry where
  date := e.date
  mood := some (e.mood.getD none)
  scores := some (fun t => some (((e.scores.getD (fun _ => none)) t).getD 0))
  detailedScores := some (fun t =>
    some (migrateSlots (((e.detailedScores.getD (fun _ => none)) t).getD emptySlots)))

/-- `getAllEntries` of `src/lib/storage.ts` (variant 1, lines 42–95): read the
whole collection and run every record through migration. The function has no
error outcome: a parse failure or a server-side call yields the empty
collection, never an exception. -/
def getAllEntries (store : StoredData) : StoredData :=
  fun d => (store d).map migrateEntry

/-- A fully-populated `DailyEntry` (the `DailyEntry` interface of
`src/lib/types.ts`): `date`, nullable `mood`, all 7 theme totals, and a
question-score object per theme. -/
structure DailyEntry where
  date : String
  mood : Option Mood
  scores : Theme → ℚ
  detailedScores : Theme → ThemeQuestionScores

/-- `entry.date || date`: JS falsy fallback (absent or empty string). -/
def jsDateOr (d : Option String) (fallback : String) : String :=
  match d with
  | none => fallback
  | some s => if s = "" then fallback else s

/-- `getDailyEntry` of `src/lib/storage.ts` (variant 1, lines 103–146): read
the (migrated) collection; when the date is present, merge the record over the
defaults field by field; otherwise return a fresh default entry. Absence of
data never produces an error. -/
def getDailyEntry (store : StoredData) (date : String) : DailyEntry :=
  match (getAllEntries store) date with
  | some e =>
      { date := jsDateOr e.date date
        mood := e.mood.getD none
        scores := fun t => ((e.scores.getD (fun _ => none)) t).getD 0
        detailedScores := fun t =>
          migrateSlots (((e.detailedScores.getD (fun _ => none)) t).getD emptySlots) }
  | none =>
      { date := date
        mood := none
        scores := fun _ => 0
        detailedScores := fun _ => migrateSlots emptySlots }

/-- A complete `DailyEntry` as it is stored back into the collection. -/
def toRaw (e : DailyEntry) : RawEntry where
  date := some e.date
  mood := some e.mood
  scores := some (fun t => some (e.scores t))
  detailedScores := some (fun t => some (e.detailedScores t))

/-- `saveDailyEntry` of `src/lib/storage.ts` (variant 1, lines 154–194): no-op
when the entry or its date is falsy; otherwise re-read (and thereby migrate)
the whole collection, complete the entry being saved by merging it over the
defaults, store it under its date and write the whole collection back. -/
def saveDailyEntry (store : StoredData) (entry : DailyEntry) : StoredData :=
  if entry.date = "" then store
  else
    let allData := getAllEntries store
    let completeEntry : DailyEntry :=
      { date := entry.date
        mood := entry.mood
        scores := fun t => entry.scores t
        detailedScores := fun t => migrateSlots (entry.detailedScores t) }
    fun d => if d = entry.date then some (toRaw completeEntry) else allData d

lemma migrateSlots_idem (q : ThemeQuestionScores) :
    migrateSlots (migrateSlots q) = migrateSlots q := by
  funext i
  unfold migrateSlots
  by_cases h : i < 8
  · simp [h]
  · simp [h]

lemma migrateEntry_toRaw (c : DailyEntry) :
    migrateEntry (toRaw c) =
      { date := some c.date
        mood := some c.mood
        scores := some (fun t => some (c.scores t))
        detailedScores := some (fun t => some (migrateSlots (c.detailedScores t))) } := rfl

/-! ## C7 — default entry on a miss -/

/-- C7: `getDailyEntry` on an empty store returns a valid default entry for
any date: `mood = null`, all 7 theme totals 0, all 56 slots (7 themes × 8
slots) 0, and the requested date — never an error. -/
theorem getDailyEntry_default (date : String) :
    (getDailyEntry (fun _ => none) date).date = date ∧
    (getDailyEntry (fun _ => none) date).mood = none ∧
    (∀ t, (getDailyEntry (fun _ => none) date).scores t = 0) ∧
    (∀ t (i : Fin 8), (getDailyEntry (fun _ => none) date).detailedScores t i.val = some 0) := by
  refine ⟨rfl, rfl, fun t => rfl, fun t i => ?_⟩
  show migrateSlots emptySlots i.val = some 0
  simp [migrateSlots, emptySlots, i.isLt]

/-- C7 witness at the spec's concrete scenario date. -/
theorem getDailyEntry_default_witness :
    (getDailyEntry (fun _ => none) "2030-01-01").date = "2030-01-01" ∧
    (getDailyEntry (fun _ => none) "2030-01-01").mood = none ∧
    (getDailyEntry (fun _ => none) "2030-01-01").scores Theme.dreaming = 0 ∧
    (getDailyEntry (fun _ => none) "2030-01-01").detailedScores Theme.dreaming 0 = some 0 := by
  obtain ⟨h1, h2, h3, h4⟩ := getDailyEntry_default "2030-01-01"
  exact ⟨h1, h2, h3 Theme.dreaming, h4 Theme.dreaming ⟨0, by norm_num⟩⟩

/-! ## C3 — save/get round trip -/

lemma getDailyEntry_of_some (store : StoredData) (d : String) (r : RawEntry)
    (h : store d = some r) :
    getDailyEntry store d =
      { date := jsDateOr (migrateEntry r).date d
        mood := (migrateEntry r).mood.getD none
        scores := fun t => (((migrateEntry r).scores.getD (fun _ => none)) t).getD 0
        detailedScores := fun t =>
          migrateSlots ((((migrateEntry r).detailedScores.getD (fun _ => none)) t).getD
            emptySlots) } := by
  unfold getDailyEntry getAllEntries
  rw [h]
  rfl

lemma saveDailyEntry_at_date (store : StoredData) (e : DailyEntry) (h : e.date ≠ "") :
    saveDailyEntry store e e.date =
      some (toRaw
        { date := e.date
          mood := e.mood
          scores := fun t => e.scores t
          detailedScores := fun t => migrateSlots (e.detailedScores t) }) := by
  unfold saveDailyEntry
  rw [if_neg h]
  simp

/-- C3 (amended): `saveEntry(e)` followed by `getEntry(e.date)` returns an
entry whose `detailedScores` is the schema completion of `e.detailedScores`
and whose `scores` is `e.scores` exactly as passed in — it equals
`deriveAllThemeTotals(e.detailedScores)` only under the extra hypothesis that
`e` was internally consistent to begin with. -/
theorem saveGet_roundtrip (store : StoredData) (e : DailyEntry) (h : e.date ≠ "") :
    (getDailyEntry (saveDailyEntry store e) e.date).date = e.date ∧
    (getDailyEntry (saveDailyEntry store e) e.date).mood = e.mood ∧
    (∀ t, (getDailyEntry (saveDailyEntry store e) e.date).scores t = e.scores t) ∧
    (∀ t, (getDailyEntry (saveDailyEntry store e) e.date).detailedScores t
        = migrateSlots (e.detailedScores t)) ∧
    ((∀ t, e.scores t = calculateOverallScores (fun t' => some (e.detailedScores t')) t) →
      ∀ t, (getDailyEntry (saveDailyEntry store e) e.date).scores t
        = calculateOverallScores (fun t' => some (e.detailedScores t')) t) := by
  have hread := getDailyEntry_of_some (saveDailyEntry store e) e.date _
    (saveDailyEntry_at_date store e h)
  rw [migrateEntry_toRaw] at hread
  have hjs : jsDateOr (some e.date) e.date = e.date := by
    simp [jsDateOr, h]
  have hread' : getDailyEntry (saveDailyEntry store e) e.date =
      { date := e.date
        mood := e.mood
        scores := fun t => e.scores t
        detailedScores := fun t => migrateSlots (e.detailedScores t) } := by
    rw [hread]
    simp only [Option.getD_some, migrateSlots_idem]
    rw [hjs]
  have hscores : ∀ t, (getDailyEntry (saveDailyEntry store e) e.date).scores t
      = e.scores t := fun t => by rw [hread']
  refine ⟨by rw [hread'], by rw [hread'], hscores, fun t => by rw [hread'],
    fun hcons t => ?_⟩
  rw [hscores t, hcons t]

/-- The C3 counterexample entry: `scores` says 1 for every theme while
`detailedScores` is empty (all-Neutral, so the derived totals are all 0). -/
def entryC3 : DailyEntry where
  date := "2024-01-01"
  mood := none
  scores := fun _ => 1
  detailedScores := fun _ => emptySlots

/-- C3 counterexample: after `saveEntry(entryC3)`, `getEntry("2024-01-01")`
returns `scores.dreaming = 1`, but `deriveAllThemeTotals(detailedScores)`
gives 0 — the store round-trips the `scores` field verbatim instead of
recomputing it from `detailedScores`. -/
theorem saveGet_scores_counterexample :
    (getDailyEntry (saveDailyEntry (fun _ => none) entryC3) "2024-01-01").scores
        Theme.dreaming = 1 ∧
    calculateOverallScores (fun t => some (entryC3.detailedScores t)) Theme.dreaming = 0 ∧
    (getDailyEntry (saveDailyEntry (fun _ => none) entryC3) "2024-01-01").scores
        Theme.dreaming ≠
      calculateOverallScores (fun t => some (entryC3.detailedScores t)) Theme.dreaming := by
  have h1 : (getDailyEntry (saveDailyEntry (fun _ => none) entryC3) "2024-01-01").scores
      Theme.dreaming = 1 := rfl
  have h2 : calculateOverallScores (fun t => some (entryC3.detailedScores t))
      Theme.dreaming = 0 := by
    show clamp (sumSlots (entryC3.detailedScores Theme.dreaming)) = 0
    norm_num [entryC3, sumSlots, emptySlots, List.range_succ, clamp]
  refine ⟨h1, h2, ?_⟩
  rw [h1, h2]
  norm_num

/-- C3 witness: a consistent entry (all slots Neutral, all totals 0)
round-trips with `scores = deriveAllThemeTotals(detailedScores)`. -/
theorem saveGet_roundtrip_witness :
    (getDailyEntry
        (saveDailyEntry (fun _ => none)
          { date := "2024-01-02", mood := none, scores := fun _ => 0,
            detailedScores := fun _ => emptySlots })
        "2024-01-02").scores Theme.dreaming
      = calculateOverallScores (fun _ => some emptySlots) Theme.dreaming := by
  have hcons : ∀ t, (0 : ℚ) = calculateOverallScores (fun _ => some emptySlots) t := by
    intro t
    show (0 : ℚ) = clamp (sumSlots emptySlots)
    norm_num [sumSlots, emptySlots, List.range_succ, clamp]
  exact (saveGet_roundtrip (fun _ => none)
    { date := "2024-01-02", mood := none, scores := fun _ => 0,
      detailedScores := fun _ => emptySlots } (by decide)).2.2.2.2
    (fun t => hcons t) Theme.dreaming

/-! ## C9 — frame property of `saveDailyEntry` -/

/-- A schema-incomplete stored record: only `date` is present (`mood`,
`scores` and `detailedScores` keys are all absent). -/
def rawIncomplete : RawEntry where
  date := some "2024-01-01"
  mood := none
  scores := none
  detailedScores := none

/-- A store holding only the incomplete record under `"2024-01-01"`. -/
def storeC9 : StoredData :=
  fun d => if d = "2024-01-01" then some rawIncomplete else none

/-- A complete entry for a different date, `"2024-01-02"`. -/
def entryC9 : DailyEntry where
  date := "2024-01-02"
  mood := none
  scores := fun _ => 0
  detailedScores := fun _ => emptySlots

/-- C9 counterexample: saving an entry for `"2024-01-02"` rewrites the record
stored under the other key `"2024-01-01"` (the save re-serializes the whole
collection after migration, which fills the missing fields of every record),
so the entry under the other date is not left unchanged. -/
theorem save_frame_counterexample :
    saveDailyEntry storeC9 entryC9 "2024-01-01" ≠ storeC9 "2024-01-01" :=
  fun h => absurd (congrArg (Option.map RawEntry.mood) h) (by decide)

/-- C9 (amended): for every other key `d ≠ e.date`, the save leaves the entry
at `d` equal to its schema migration (in particular an already-migrated entry
is left unchanged, and no keys are added or removed). -/
theorem save_frame (store : StoredData) (e : DailyEntry) (d : String)
    (hdate : e.date ≠ "") (hd : d ≠ e.date) :
    saveDailyEntry store e d = (store d).map migrateEntry ∧
    ((store d).map migrateEntry = store d → saveDailyEntry store e d = store d) := by
  have h1 : saveDailyEntry store e d = (store d).map migrateEntry := by
    unfold saveDailyEntry
    rw [if_neg hdate]
    show (if d = e.date then _ else getAllEntries store d) = _
    rw [if_neg hd]
    rfl
  exact ⟨h1, fun h2 => by rw [h1, h2]⟩

/-- C9 witness at the concrete store and entry of the counterexample. -/
theorem save_frame_witness :
    saveDailyEntry storeC9 entryC9 "2024-01-01"
      = (storeC9 "2024-01-01").map migrateEntry :=
  (save_frame storeC9 entryC9 "2024-01-01" (by decide) (by decide)).1

/-! ## C6 — schema completion on read -/

/-- All invariants of §3 hold of a record: `mood` present, all 7 theme totals
present, all 7 themes with all 8 slots present. -/
def schemaComplete (e : RawEntry) : Prop :=
  e.mood.isSome ∧
  (∃ s, e.scores = some s ∧ ∀ t, (s t).isSome) ∧
  (∃ dq, e.detailedScores = some dq ∧
    ∀ t, ∃ q, dq t = some q ∧ ∀ i, i < 8 → (q i).isSome)

/-- The slot value a raw record holds at `(theme, i)` (with JS-style
defaulting of the missing containers). -/
def slotOf (e : RawEntry) (t : Theme) (i : ℕ) : Option ℚ :=
  ((e.detailedScores.getD (fun _ => none)) t).getD emptySlots i

/-- C6 (amended): every raw record read through `getAllEntries` passes schema
completion — missing themes and slots are filled with the Neutral 0 and
present slot values are preserved; but an absent `scores` field is replaced by
the all-zero default `createDefaultThemeScores`, NOT recomputed from
`detailedScores` (a present `scores` is kept, with missing totals zeroed).
Reads never surface data gaps as errors (the read is total by type). -/
theorem read_completion (store : StoredData) (d : String) (r : RawEntry)
    (h : store d = some r) :
    getAllEntries store d = some (migrateEntry r) ∧
    schemaComplete (migrateEntry r) ∧
    (∀ t i, i < 8 → slotOf (migrateEntry r) t i = some ((slotOf r t i).getD 0)) ∧
    (r.scores = none → (migrateEntry r).scores = some createDefaultThemeScores) ∧
    (∀ s, r.scores = some s →
      (migrateEntry r).scores = some (fun t => some ((s t).getD 0))) := by
  refine ⟨by unfold getAllEntries; rw [h]; rfl, ?_, ?_, ?_, ?_⟩
  · refine ⟨rfl, ⟨_, rfl, fun t => rfl⟩, ⟨_, rfl, fun t => ⟨_, rfl, fun i hi => ?_⟩⟩⟩
    simp [migrateSlots, hi]
  · intro t i hi
    show migrateSlots (((r.detailedScores.getD (fun _ => none)) t).getD emptySlots) i
      = some ((slotOf r t i).getD 0)
    simp [migrateSlots, slotOf, hi]
  · intro hnone
    show some (fun t => some (((r.scores.getD (fun _ => none)) t).getD 0))
      = some createDefaultThemeScores
    rw [hnone]
    rfl
  · intro s hs
    show some (fun t => some (((r.scores.getD (fun _ => none)) t).getD 0))
      = some (fun t => some ((s t).getD 0))
    rw [hs]
    rfl

/-- The C6 counterexample record: `scores` is absent while `detailedScores`
has every slot of every theme at `Positive = 0.25`. -/
def rawC6 : RawEntry where
  date := some "2024-01-01"
  mood := some none
  scores := none
  detailedScores := some (fun _ => some (fun i => if i < 8 then some (1/4) else none))

/-- A store holding only `rawC6` under `"2024-01-01"`. -/
def storeC6 : StoredData :=
  fun d => if d = "2024-01-01" then some rawC6 else none

/-- C6 counterexample: for a record with `scores` absent the read returns the
defaulted total 0 for `dreaming`, while recomputing from `detailedScores`
would give 2 — `scores` is merely defaulted, not recomputed. -/
theorem read_completion_counterexample :
    (getAllEntries storeC6 "2024-01-01").map
        (fun e => (e.scores.getD (fun _ => none)) Theme.dreaming) = some (some 0) ∧
    calculateOverallScores (rawC6.detailedScores.getD (fun _ => none)) Theme.dreaming = 2 ∧
    (getAllEntries storeC6 "2024-01-01").map
        (fun e => (e.scores.getD (fun _ => none)) Theme.dreaming) ≠
      some (some (calculateOverallScores (rawC6.detailedScores.getD (fun _ => none))
        Theme.dreaming)) := by
  have h1 : (getAllEntries storeC6 "2024-01-01").map
      (fun e => (e.scores.getD (fun _ => none)) Theme.dreaming) = some (some 0) := rfl
  have h2 : calculateOverallScores (rawC6.detailedScores.getD (fun _ => none))
      Theme.dreaming = 2 := by
    show clamp (sumSlots (fun i => if i < 8 then some (1/4) else none)) = 2
    norm_num [sumSlots, List.range_succ, clamp]
  refine ⟨h1, h2, ?_⟩
  rw [h1, h2]
  intro hcon
  injection hcon with hcon1
  injection hcon1 with hcon2
  norm_num at hcon2

/-- C6 witness at the concrete store and record of the counterexample. -/
theorem read_completion_witness :
    getAllEntries storeC6 "2024-01-01" = some (migrateEntry rawC6) ∧
    (migrateEntry rawC6).scores = some createDefaultThemeScores := by
  have h := read_completion storeC6 "2024-01-01" rawC6 rfl
  exact ⟨h.1, h.2.2.2.1 rfl⟩

/-! ## C8 — write-failure behaviour of the async `saveDailyEntry` (variant 3) -/

/-- The result object of `saveEntryToFirestore`
(`src/actions/save-entry-to-firestore.ts`). -/
structure FirestoreResult where
  success : Bool
  error : Option String
  deriving DecidableEq, Repr

/-- `validateAndCompleteEntry(entry, entry.date)` of `src/lib/storage.ts`
(variant 3, lines 352–375) applied to a fully-populated `DailyEntry`: the
field merges over the defaults keep the given `date`, `mood` and `scores` and
fill the slots 0–7 of every theme. -/
def validateAndCompleteEntry (e : DailyEntry) : DailyEntry where
  date := e.date
  mood := e.mood
  scores := e.scores
  detailedScores := fun t => migrateSlots (e.detailedScores t)

/-- `saveEntryToFirestore` as observed by `saveDailyEntry`: a falsy date is
rejected, otherwise the document under the entry's date is replaced on
success; every failure (including a thrown Firestore error) is caught inside
the action and reported through the returned result object, never thrown.
`fsOk` injects whether the underlying `setDoc` call succeeds. -/
def saveEntryToFirestore (fsOk : Bool) (remote : StoredData) (e : DailyEntry) :
    StoredData × FirestoreResult :=
  if e.date = "" then (remote, ⟨false, some "Invalid entry data provided."⟩)
  else if fsOk then
    ((fun d => if d = e.date then some (toRaw e) else remote d), ⟨true, none⟩)
  else (remote, ⟨false, some "Failed to save entry to Firestore."⟩)

/-- One call of `saveDailyEntry` (variant 3, lines 401–422), with its
observable effects: the local store, the remote store, the `console.error`
lines, and — as the `Unit` in the payload — the value returned to the caller
(the TS return type is `Promise<void>`). An `Except.error` would model a JS
exception escaping to the caller. `localOk` injects whether
`localStorage.setItem` succeeds (its failure is caught inside
`saveLocalStoredData` and logged); `fsConfigured` is whether Firestore is
configured; `fsOk` whether the remote write succeeds. -/
def saveDailyEntryV3 (localStore remoteStore : StoredData)
    (localOk fsConfigured fsOk : Bool) (entry : DailyEntry) :
    Except String ((StoredData × StoredData × List String) × Unit) :=
  let completeEntry := validateAndCompleteEntry entry
  let localRes : StoredData × List String :=
    if localOk then
      ((fun d => if d = entry.date then some (toRaw completeEntry) else localStore d), [])
    else (localStore, ["[LocalStorage] Error saving data:"])
  if fsConfigured then
    let fsRes := saveEntryToFirestore fsOk remoteStore completeEntry
    if fsRes.2.success then .ok ((localRes.1, fsRes.1, localRes.2), ())
    else .ok ((localRes.1, fsRes.1,
      localRes.2 ++ ["[Storage] Failed to save entry to Firestore (global). Error:"]), ())
  else .ok ((localRes.1, remoteStore, localRes.2), ())

/-- C8 (amended): a backend write failure never throws past `saveDailyEntry` —
the call always returns normally — but the failure is only logged to the
console: the function returns void, so the caller-visible return value carries
no status and is the same whether the remote write succeeds or fails. -/
theorem save_write_failure_spec (ls rs : StoredData) (lOk fsC fsOk : Bool)
    (e : DailyEntry) :
    (saveDailyEntryV3 ls rs lOk fsC fsOk e).toOption.map Prod.snd = some () ∧
    (fsC = true → fsOk = false →
      ∃ logs, (saveDailyEntryV3 ls rs lOk fsC fsOk e).toOption.map (fun p => p.1.2.2)
          = some logs ∧
        "[Storage] Failed to save entry to Firestore (global). Error:" ∈ logs) := by
  rcases fsC with _ | _
  · constructor
    · simp [saveDailyEntryV3, Except.toOption]
    · intro hcon
      cases hcon
  · rcases fsOk with _ | _
    · constructor
      · by_cases hd : e.date = "" <;>
          simp [saveDailyEntryV3, saveEntryToFirestore, validateAndCompleteEntry, hd,
            Except.toOption]
      · intro _ _
        by_cases hd : e.date = "" <;>
          simp [saveDailyEntryV3, saveEntryToFirestore, validateAndCompleteEntry, hd,
            Except.toOption, List.mem_append]
    · constructor
      · by_cases hd : e.date = "" <;>
          simp [saveDailyEntryV3, saveEntryToFirestore, validateAndCompleteEntry, hd,
            Except.toOption]
      · intro _ hcon
        cases hcon

/-- C8 counterexample: with the remote write failing versus succeeding, the
caller-visible return value of `saveDailyEntry` is the same `.ok ()` — the
failure is not surfaced as a result/status the caller can check; only the
console log differs. -/
theorem save_write_failure_counterexample :
    (saveDailyEntryV3 (fun _ => none) (fun _ => none) true true false entryC9).toOption.map
        Prod.snd
      = (saveDailyEntryV3 (fun _ => none) (fun _ => none) true true true entryC9).toOption.map
        Prod.snd ∧
    (saveDailyEntryV3 (fun _ => none) (fun _ => none) true true false entryC9).toOption.map
        (fun p => p.1.2.2)
      ≠ (saveDailyEntryV3 (fun _ => none) (fun _ => none) true true true entryC9).toOption.map
        (fun p => p.1.2.2) := by
  constructor
  · rfl
  · intro h
    have h1 : (saveDailyEntryV3 (fun _ => none) (fun _ => none) true true false
        entryC9).toOption.map (fun p => p.1.2.2)
        = some ["[Storage] Failed to save entry to Firestore (global). Error:"] := rfl
    have h2 : (saveDailyEntryV3 (fun _ => none) (fun _ => none) true true true
        entryC9).toOption.map (fun p => p.1.2.2) = some [] := rfl
    rw [h1, h2] at h
    cases h

/-- C8 witness: at a concrete failing remote write, the call returns `.ok ()`
and the failure message is in the console log. -/
theorem save_write_failure_spec_witness :
    (saveDailyEntryV3 (fun _ => none) (fun _ => none) true true false entryC9).toOption.map
        Prod.snd = some () ∧
    ∃ logs, (saveDailyEntryV3 (fun _ => none) (fun _ => none) true true false
        entryC9).toOption.map (fun p => p.1.2.2) = some logs ∧
      "[Storage] Failed to save entry to Firestore (global). Error:" ∈ logs := by
  have h := save_write_failure_spec (fun _ => none) (fun _ => none) true true false entryC9
  exact ⟨h.1, h.2 rfl rfl⟩

/-! ## Tabular Exporter -/

/-- JS `String.prototype.trim()`: strip leading and trailing whitespace
(structural model over the character list). -/
def jsTrim (s : String) : String :=
  ⟨((s.data.dropWhile Char.isWhitespace).reverse.dropWhile Char.isWhitespace).reverse⟩

/-- The machine-distinguishable failure categories of `exportToGoogleSheets`:
each corresponds to a distinct error message built in the source (missing env
vars; bad private-key format; Zod-rejected input; auth failure; permission
denied; spreadsheet not found; header mismatch; a failed write call). Only
the header mismatch is reachable in this model, which assumes valid
configuration and successful API transport. -/
inductive ExportError
  | configMissing
  | badKeyFormat
  | invalidInput
  | authFailed
  | permissionDenied
  | notFound
  | headerMismatch (expected found : List String)
  | writeFailed
  deriving DecidableEq, Repr

/-- `ExportResult` of `src/actions/export-to-google-sheets.ts`, with the error
string categorised. Counts are 0 on failure paths. -/
structure ExportResult where
  success : Bool
  rowsAppended : ℕ
  rowsUpdated : ℕ
  error : Option ExportError
  deriving DecidableEq, Repr

/-- A sheet tab: the list of its rows, each a list of the cell strings Google
Sheets stores and returns; sheet row `r` (1-based) is list index `r - 1`. -/
abbrev Sheet : Type := List (List String)

/-- `String(rowData[0])`: the first cell, or the JS rendering of `undefined`
when the row has no cells. -/
def dateValueOf (row : List String) : String := row.head?.getD "undefined"

/-- Whether (and under which key) a sheet row enters the date map:
`if (row[0] && String(row[0]).trim() !== "") map.set(String(row[0]), pos)`. -/
def cellKey (row : List String) : Option String :=
  match row.head? with
  | some c => if c ≠ "" ∧ jsTrim c ≠ "" then some c else none
  | none => none

/-- The date map built from the data rows of the sheet (`A2:A`), as a lookup:
the 0-based index (within the data rows) the JS `Map` holds for a date — the
last matching row, because later `Map.set` calls overwrite earlier ones. -/
def lastIdx (rows : List (List String)) (d : String) : Option ℕ :=
  match rows with
  | [] => none
  | row :: rest =>
    match lastIdx rest d with
    | some i => some (i + 1)
    | none => if cellKey row = some d then some 0 else none

/-- One `values.update` of a row range: overwrite the cells of row index `j`
(0-based) covered by `vals`, leaving trailing cells as they were; writes to a
row that does not exist are a no-op (the date map only yields existing rows,
so this path is not taken by the exporter). -/
def updRow (s : Sheet) (j : ℕ) (vals : List String) : Sheet :=
  s.set j (vals ++ (s.getD j []).drop vals.length)

/-- The `rowsToUpdate` partition of the `data.forEach` loop: the rows whose
date is in the map, paired with the 1-based sheet row to overwrite
(`existingDatesMap.get(dateValue)`, which is the data-row index plus 2). -/
def updatesOf (dataRows data : List (List String)) : List (ℕ × List String) :=
  data.filterMap (fun row =>
    (lastIdx dataRows (dateValueOf row)).map (fun i => (i + 2, row)))

/-- The `rowsToAppend` partition: the rows whose date is not in the map. -/
def appendsOf (dataRows data : List (List String)) : List (List String) :=
  data.filter (fun row => (lastIdx dataRows (dateValueOf row)).isNone)

/-- The reconciliation core of `exportToGoogleSheets`
(`src/actions/export-to-google-sheets.ts`, lines 137–318); configuration,
authentication and API transport are assumed good (their failure paths return
the other `ExportError` categories before any reconciliation happens).

1. Read `A1:Z1` — at most the first 26 cells of row 1. If that is empty,
   write the expected header verbatim over row 1 (when non-empty) and append
   every data row after the last row.
2. Otherwise the (truncated) existing header must equal the expected one
   exactly; a mismatch is a hard failure with no writes.
3. On a match, build date → row position from column A of rows 2 and below,
   partition the data rows into updates (date present: that row is
   overwritten in place) and appends (date absent: added after the last
   row), apply updates then appends, and report both counts. -/
def exportToGoogleSheets (sheet : Sheet) (headers : List String)
    (data : List (List String)) : ExportResult × Sheet :=
  let existingHeaders := (sheet.head?.getD []).take 26
  if existingHeaders.length = 0 then
    -- writing the headers over row 1 of a headerless sheet: row 1 was absent
    -- or empty, so the updated row 1 is `headers` followed by the (empty)
    -- remainder of the old row 1
    let sheet1 :=
      if headers.length = 0 then sheet
      else (headers ++ (sheet.head?.getD []).drop headers.length) :: sheet.tail
    (⟨true, data.length, 0, none⟩, sheet1 ++ data)
  else if existingHeaders = headers then
    let updates := updatesOf sheet.tail data
    let appends := appendsOf sheet.tail data
    let sheet1 := updates.foldl (fun s p => updRow s (p.1 - 1) p.2) sheet
    (⟨true, appends.length, updates.length, none⟩, sheet1 ++ appends)
  else
    (⟨false, 0, 0, some (.headerMismatch headers existingHeaders)⟩, sheet)

/-! ### Path equations -/

lemma export_empty_path (sheet : Sheet) (headers : List String)
    (data : List (List String)) (h : ((sheet.head?.getD []).take 26).length = 0) :
    exportToGoogleSheets sheet headers data =
      (⟨true, data.length, 0, none⟩,
        (if headers.length = 0 then sheet
         else (headers ++ (sheet.head?.getD []).drop headers.length) :: sheet.tail)
          ++ data) := by
  unfold exportToGoogleSheets
  dsimp only
  rw [if_pos h]

lemma export_match_path (sheet : Sheet) (headers : List String)
    (data : List (List String)) (h0 : ¬ ((sheet.head?.getD []).take 26).length = 0)
    (h1 : (sheet.head?.getD []).take 26 = headers) :
    exportToGoogleSheets sheet headers data =
      (⟨true, (appendsOf sheet.tail data).length, (updatesOf sheet.tail data).length,
        none⟩,
      (updatesOf sheet.tail data).foldl (fun s p => updRow s (p.1 - 1) p.2) sheet ++
        appendsOf sheet.tail data) := by
  unfold exportToGoogleSheets
  dsimp only
  rw [if_neg h0, if_pos h1]

lemma export_mismatch_path (sheet : Sheet) (headers : List String)
    (data : List (List String)) (h0 : ¬ ((sheet.head?.getD []).take 26).length = 0)
    (h1 : ¬ (sheet.head?.getD []).take 26 = headers) :
    exportToGoogleSheets sheet headers data =
      (⟨false, 0, 0, some (.headerMismatch headers ((sheet.head?.getD []).take 26))⟩,
        sheet) := by
  unfold exportToGoogleSheets
  dsimp only
  rw [if_neg h0, if_neg h1]

/-! ## C5 — header mismatch -/

/-- C5 (amended): when the existing header row is non-empty, has at most 26
columns (the exporter reads only `A1:Z1`), and differs from the expected
header, the export fails with the distinct header-mismatch category, reports
zero appended and zero updated rows, and leaves the sheet untouched. -/
theorem header_mismatch_spec (sheet : Sheet) (headers : List String)
    (data : List (List String)) (r1 : List String) (h1 : sheet.head? = some r1)
    (h2 : r1 ≠ []) (h3 : r1.length ≤ 26) (h4 : r1 ≠ headers) :
    exportToGoogleSheets sheet headers data =
      (⟨false, 0, 0, some (.headerMismatch headers r1)⟩, sheet) := by
  have htake : (sheet.head?.getD []).take 26 = r1 := by
    rw [h1]
    exact List.take_of_length_le h3
  have h0 : ¬ ((sheet.head?.getD []).take 26).length = 0 := by
    rw [htake]
    simpa using fun hlen => h2 (List.length_eq_zero.mp hlen)
  rw [export_mismatch_path sheet headers data h0 (by rw [htake]; exact h4), htake]

/-- C5 witness at the spec's concrete scenario: remote header
`["Date", "Foo"]` against expected `["Date", "Sleep"]`. -/
theorem header_mismatch_spec_witness :
    exportToGoogleSheets [["Date", "Foo"]] ["Date", "Sleep"] [["2024-01-01", "1"]] =
      (⟨false, 0, 0, some (.headerMismatch ["Date", "Sleep"] ["Date", "Foo"])⟩,
        [["Date", "Foo"]]) :=
  header_mismatch_spec [["Date", "Foo"]] ["Date", "Sleep"] [["2024-01-01", "1"]]
    ["Date", "Foo"] rfl (by decide) (by decide) (by decide)

/-- C5 counterexample: the exporter reads only `A1:Z1`, so a 27-column header
row whose first 26 cells agree with a 26-column expected header passes the
"exact equality" check even though the rows differ — the export succeeds and
appends a row instead of failing. -/
theorem header_mismatch_counterexample :
    (List.replicate 27 "h" : List String) ≠ [] ∧
    (List.replicate 27 "h" : List String) ≠ List.replicate 26 "h" ∧
    (exportToGoogleSheets [List.replicate 27 "h"] (List.replicate 26 "h")
        [["2024-01-01", "1"]]).1.success = true ∧
    (exportToGoogleSheets [List.replicate 27 "h"] (List.replicate 26 "h")
        [["2024-01-01", "1"]]).1.rowsAppended = 1 := by
  refine ⟨by decide, by decide,
    by rw [export_match_path _ _ _ (by decide) (by decide)], ?_⟩
  rw [export_match_path _ _ _ (by decide) (by decide)]
  rfl

/-! ## C4 — idempotence of the export upsert

Helper lemmas about the date map `lastIdx` and the update fold. -/

/-- Data rows as the exporter builds them: a non-empty, non-whitespace date
string in the first cell. -/
def ValidRows (data : List (List String)) : Prop :=
  ∀ row ∈ data, ∃ c, row.head? = some c ∧ c ≠ "" ∧ jsTrim c ≠ ""

lemma cellKey_of_valid (row : List String) (c : String) (hc : row.head? = some c)
    (h1 : c ≠ "") (h2 : jsTrim c ≠ "") :
    cellKey row = some c ∧ dateValueOf row = c := by
  constructor
  · unfold cellKey
    rw [hc]
    simp [h1, h2]
  · unfold dateValueOf
    rw [hc]
    rfl

lemma dateValueOf_of_cellKey (row : List String) (d : String)
    (h : cellKey row = some d) : dateValueOf row = d := by
  unfold cellKey at h
  unfold dateValueOf
  cases hh : row.head? with
  | none => rw [hh] at h; cases h
  | some c =>
    rw [hh] at h
    dsimp only at h
    by_cases hcond : c ≠ "" ∧ jsTrim c ≠ ""
    · rw [if_pos hcond] at h
      simpa using h
    · rw [if_neg hcond] at h
      cases h

lemma cellKey_append (row extra : List String) (hne : row ≠ []) :
    cellKey (row ++ extra) = cellKey row := by
  unfold cellKey
  cases row with
  | nil => exact absurd rfl hne
  | cons a as => rfl

lemma lastIdx_eq_none (rows : List (List String)) (d : String)
    (h : ∀ row ∈ rows, cellKey row ≠ some d) : lastIdx rows d = none := by
  induction rows with
  | nil => rfl
  | cons row rest ih =>
    unfold lastIdx
    rw [ih (fun r hr => h r (List.mem_cons_of_mem _ hr))]
    simp [h row (List.mem_cons_self _ _)]

lemma lastIdx_get (rows : List (List String)) (d : String) (i : ℕ)
    (h : lastIdx rows d = some i) :
    ∃ row, rows[i]? = some row ∧ cellKey row = some d := by
  induction rows generalizing i with
  | nil => cases h
  | cons row rest ih =>
    unfold lastIdx at h
    cases hrest : lastIdx rest d with
    | some j =>
      rw [hrest] at h
      injection h with h'
      obtain ⟨r, hr1, hr2⟩ := ih j hrest
      exact ⟨r, by rw [← h']; simpa using hr1, hr2⟩
    | none =>
      rw [hrest] at h
      by_cases hck : cellKey row = some d
      · rw [if_pos hck] at h
        injection h with h'
        exact ⟨row, by rw [← h']; simp, hck⟩
      · rw [if_neg hck] at h
        cases h

lemma lastIdx_append (xs ys : List (List String)) (d : String) :
    lastIdx (xs ++ ys) d =
      match lastIdx ys d with
      | some j => some (xs.length + j)
      | none => lastIdx xs d := by
  induction xs with
  | nil =>
    cases h : lastIdx ys d <;> simp [lastIdx, h]
  | cons x xs ih =>
    show (match lastIdx (xs ++ ys) d with
      | some i => some (i + 1)
      | none => if cellKey x = some d then some 0 else none) = _
    rw [ih]
    cases h : lastIdx ys d with
    | some j => simp [Nat.add_right_comm]
    | none =>
      show (match lastIdx xs d with
        | some i => some (i + 1)
        | none => if cellKey x = some d then some 0 else none) = _
      rfl

lemma lastIdx_congr (A B : List (List String)) (d : String)
    (h : ∀ k : ℕ, A[k]?.map cellKey = B[k]?.map cellKey) : lastIdx A d = lastIdx B d := by
  induction A generalizing B with
  | nil =>
    cases B with
    | nil => rfl
    | cons b bs => simpa using h 0
  | cons a as ih =>
    cases B with
    | nil => simpa using h 0
    | cons b bs =>
      have h0 : cellKey a = cellKey b := by simpa using h 0
      have hrest : lastIdx as d = lastIdx bs d := ih bs (fun k => by simpa using h (k + 1))
      unfold lastIdx
      rw [hrest, h0]

lemma lastIdx_self (data : List (List String)) (hv : ValidRows data)
    (hnd : (data.map dateValueOf).Nodup) :
    ∀ row ∈ data, ∃ j, lastIdx data (dateValueOf row) = some j ∧ data[j]? = some row := by
  induction data with
  | nil => intro row hr; cases hr
  | cons r0 rest ih =>
    have hv' : ValidRows rest := fun r hr => hv r (List.mem_cons_of_mem _ hr)
    have hnd' : (rest.map dateValueOf).Nodup := (List.nodup_cons.mp hnd).2
    have hnotin : dateValueOf r0 ∉ rest.map dateValueOf := (List.nodup_cons.mp hnd).1
    intro row hrow
    rcases List.mem_cons.mp hrow with hhead | htail
    · subst hhead
      have hnone : lastIdx rest (dateValueOf row) = none := by
        apply lastIdx_eq_none
        intro r' hr' hck
        exact hnotin (by
          rw [← dateValueOf_of_cellKey r' (dateValueOf row) hck]
          exact List.mem_map_of_mem _ hr')
      obtain ⟨c, hc, h1, h2⟩ := hv row (List.mem_cons_self _ _)
      obtain ⟨hck, hdv⟩ := cellKey_of_valid row c hc h1 h2
      refine ⟨0, ?_, by simp⟩
      unfold lastIdx
      rw [hnone, if_pos (by rw [hck, hdv])]
    · obtain ⟨j, hj1, hj2⟩ := ih hv' hnd' row htail
      refine ⟨j + 1, ?_, by simpa using hj2⟩
      unfold lastIdx
      rw [hj1]

lemma getElem?_set_self (l : List (List String)) (n : ℕ) (a : List String) :
    (l.set n a)[n]? = l[n]?.map (fun _ => a) := by
  induction l generalizing n with
  | nil => simp
  | cons x xs ih =>
    cases n with
    | zero => simp
    | succ m => simpa using ih m

lemma set_of_getElem? (l : List (List String)) (n : ℕ) (a : List String)
    (h : l[n]? = some a) : l.set n a = l := by
  induction l generalizing n with
  | nil => rfl
  | cons x xs ih =>
    cases n with
    | zero => simp at h; simp [h]
    | succ m => simp at h ⊢; exact ih m h

lemma updRow_length (s : Sheet) (j : ℕ) (v : List String) :
    (updRow s j v).length = s.length := by
  simp [updRow]

lemma updRow_getElem?_self (s : Sheet) (j : ℕ) (v : List String) :
    (updRow s j v)[j]? = s[j]?.map (fun old => v ++ old.drop v.length) := by
  unfold updRow
  rw [getElem?_set_self]
  cases h : s[j]? with
  | none => rfl
  | some old =>
    have hgd : s.getD j [] = old := by
      rw [List.getD_eq_getElem?_getD, h]
      rfl
    simp [hgd, h]

lemma updRow_getElem?_ne (s : Sheet) (j k : ℕ) (v : List String) (h : j ≠ k) :
    (updRow s j v)[k]? = s[k]? :=
  List.getElem?_set_ne h

lemma foldl_updRow_length (ups : List (ℕ × List String)) (T : Sheet) :
    (ups.foldl (fun s p => updRow s p.1 p.2) T).length = T.length := by
  induction ups generalizing T with
  | nil => rfl
  | cons p rest ih =>
    rw [List.foldl_cons, ih (updRow T p.1 p.2), updRow_length]

lemma foldl_fixed (g : Sheet → (ℕ × List String) → Sheet) (b : Sheet)
    (l : List (ℕ × List String)) (h : ∀ p ∈ l, g b p = b) :
    l.foldl g b = b := by
  induction l with
  | nil => rfl
  | cons p rest ih =>
    rw [List.foldl_cons, h p (List.mem_cons_self _ _)]
    exact ih (fun q hq => h q (List.mem_cons_of_mem _ hq))

/-- The characterization of the batch-update fold at each row index: with
pairwise-distinct target indices, a targeted row is overwritten (keeping its
trailing cells) and every other row is untouched. -/
lemma foldl_updRow_getElem? (ups : List (ℕ × List String))
    (hnd : (ups.map Prod.fst).Nodup) (T : Sheet) (k : ℕ) :
    (ups.foldl (fun s p => updRow s p.1 p.2) T)[k]? =
      match ups.find? (fun p => p.1 == k) with
      | some p => T[k]?.map (fun old => p.2 ++ old.drop p.2.length)
      | none => T[k]? := by
  induction ups generalizing T with
  | nil => rfl
  | cons p rest ih =>
    have hnd' : (rest.map Prod.fst).Nodup := (List.nodup_cons.mp hnd).2
    have hnotin : p.1 ∉ rest.map Prod.fst := (List.nodup_cons.mp hnd).1
    rw [List.foldl_cons, ih hnd' (updRow T p.1 p.2)]
    by_cases hk : p.1 = k
    · subst hk
      have hfind : rest.find? (fun q => q.1 == p.1) = none := by
        rw [List.find?_eq_none]
        intro q hq hbeq
        have hq1 : q.1 = p.1 := by simpa using hbeq
        exact hnotin (hq1 ▸ List.mem_map_of_mem _ hq)
      rw [hfind]
      show (updRow T p.1 p.2)[p.1]? = _
      rw [updRow_getElem?_self]
      have : List.find? (fun q => q.1 == p.1) (p :: rest) = some p := by
        rw [List.find?_cons_of_pos _ (by simp)]
      rw [this]
    · have : List.find? (fun q => q.1 == k) (p :: rest) = rest.find? (fun q => q.1 == k) := by
        rw [List.find?_cons_of_neg _ (by simp [hk])]
      rw [this, updRow_getElem?_ne T p.1 k p.2 hk]

lemma find?_of_mem_nodup (ups : List (ℕ × List String)) (i : ℕ) (row : List String)
    (hnd : (ups.map Prod.fst).Nodup) (hmem : (i, row) ∈ ups) :
    ups.find? (fun p => p.1 == i) = some (i, row) := by
  induction ups with
  | nil => cases hmem
  | cons q rest ih =>
    have hnd' : (rest.map Prod.fst).Nodup := (List.nodup_cons.mp hnd).2
    have hnotin : q.1 ∉ rest.map Prod.fst := (List.nodup_cons.mp hnd).1
    by_cases hq : q.1 = i
    · rcases List.mem_cons.mp hmem with hh | ht
      · rw [List.find?_cons_of_pos _ (by simp [hq]), hh]
      · exact absurd (hq ▸ List.mem_map_of_mem Prod.fst ht : q.1 ∈ rest.map Prod.fst)
          (by exact fun hc => hnotin hc)
    · rcases List.mem_cons.mp hmem with hh | ht
      · exact absurd (congrArg Prod.fst hh).symm (by simpa using hq)
      · rw [List.find?_cons_of_neg _ (by simp [hq])]
        exact ih hnd' ht

lemma length_filterMap_of_isSome {α β : Type} (f : α → Option β) (l : List α)
    (h : ∀ x ∈ l, (f x).isSome) : (l.filterMap f).length = l.length := by
  induction l with
  | nil => rfl
  | cons x xs ih =>
    cases hfx : f x with
    | none => exact absurd (hfx ▸ h x (List.mem_cons_self _ _)) (by simp)
    | some b =>
      simp only [List.filterMap_cons, hfx]
      simpa using ih (fun y hy => h y (List.mem_cons_of_mem _ hy))

lemma mem_updatesOf (dataRows data : List (List String)) (p : ℕ × List String)
    (h : p ∈ updatesOf dataRows data) :
    ∃ i row, p = (i + 2, row) ∧ row ∈ data ∧ lastIdx dataRows (dateValueOf row) = some i := by
  obtain ⟨row, hrow, hmap⟩ := List.mem_filterMap.mp h
  obtain ⟨i, hi, hip⟩ := Option.map_eq_some'.mp hmap
  exact ⟨i, row, hip.symm, hrow, hi⟩

lemma updatesOf_shift_nodup (T0 data : List (List String)) (hv : ValidRows data)
    (hnd : (data.map dateValueOf).Nodup) :
    ((updatesOf T0 data).map (fun p => p.1 - 1)).Nodup := by
  induction data with
  | nil => exact List.nodup_nil
  | cons row rest ih =>
    have hv' : ValidRows rest := fun r hr => hv r (List.mem_cons_of_mem _ hr)
    have hnd' : (rest.map dateValueOf).Nodup := (List.nodup_cons.mp hnd).2
    have hnotin : dateValueOf row ∉ rest.map dateValueOf := (List.nodup_cons.mp hnd).1
    unfold updatesOf
    simp only [List.filterMap_cons]
    cases hL : lastIdx T0 (dateValueOf row) with
    | none => exact ih hv' hnd'
    | some i =>
      simp only [Option.map_some']
      rw [List.map_cons, List.nodup_cons]
      refine ⟨?_, ih hv' hnd'⟩
      intro hmem
      obtain ⟨q, hq, hq1⟩ := List.mem_map.mp hmem
      obtain ⟨i', row', rfl, hrow', hL'⟩ := mem_updatesOf T0 rest q hq
      simp only at hq1
      have hii : i' = i := by omega
      rw [hii] at hL'
      obtain ⟨r, hr1, hckr⟩ := lastIdx_get T0 (dateValueOf row) i hL
      obtain ⟨r2, hr2, hckr2⟩ := lastIdx_get T0 (dateValueOf row') i hL'
      have hrr2 : r = r2 := by
        have := hr1.symm.trans hr2
        injection this
      have hdv : dateValueOf row = dateValueOf row' := by
        have h2 := hckr2
        rw [← hrr2] at h2
        have := hckr.symm.trans h2
        injection this
      exact hnotin (hdv ▸ List.mem_map_of_mem _ hrow')

lemma tail_getElem? (l : Sheet) (k : ℕ) : l.tail[k]? = l[k + 1]? := by
  cases l <;> simp

lemma head?_of_getElem?_zero (l : Sheet) (x : List String) (h : l[0]? = some x) :
    l.head? = some x := by
  cases l with
  | nil => simp at h
  | cons a as => simpa using h

lemma head?_append_left (l l' : Sheet) (h : l ≠ []) : (l ++ l').head? = l.head? := by
  cases l with
  | nil => exact absurd rfl h
  | cons a as => rfl

lemma tail_append_left (l l' : Sheet) (h : l ≠ []) : (l ++ l').tail = l.tail ++ l' := by
  cases l with
  | nil => exact absurd rfl h
  | cons a as => rfl

/-- The reconciled-state invariant a successful export establishes: every
local data row already sits in the sheet — its date maps to a row whose cells
start with exactly that row's values. -/
def RowsReconciled (T : List (List String)) (data : List (List String)) : Prop :=
  ∀ row ∈ data, ∃ i extra,
    lastIdx T (dateValueOf row) = some i ∧ T[i]? = some (row ++ extra)

/-- A second export over a sheet that is already reconciled with the data:
header check passes, every row is an update that rewrites identical values in
place, nothing is appended — the reported counts are `rowsAppended = 0`,
`rowsUpdated = data.length`, and the sheet is unchanged. -/
lemma export_second_run (S1 : Sheet) (headers : List String)
    (data : List (List String)) (r1 : List String) (hhead : S1.head? = some r1)
    (htake : r1.take 26 = headers) (hne : headers ≠ [])
    (hWF : RowsReconciled S1.tail data) :
    exportToGoogleSheets S1 headers data = (⟨true, 0, data.length, none⟩, S1) := by
  have h1 : (S1.head?.getD []).take 26 = headers := by
    rw [hhead]
    simpa using htake
  have h0 : ¬ ((S1.head?.getD []).take 26).length = 0 := by
    rw [h1]
    simpa using fun hl => hne (List.length_eq_zero.mp hl)
  rw [export_match_path S1 headers data h0 h1]
  have happ : appendsOf S1.tail data = [] := by
    unfold appendsOf
    rw [List.filter_eq_nil_iff]
    intro row hrow
    obtain ⟨i, extra, hL, _⟩ := hWF row hrow
    simp [hL]
  have hlen : (updatesOf S1.tail data).length = data.length := by
    unfold updatesOf
    apply length_filterMap_of_isSome
    intro row hrow
    obtain ⟨i, extra, hL, _⟩ := hWF row hrow
    simp [hL]
  have hfold : (updatesOf S1.tail data).foldl (fun s p => updRow s (p.1 - 1) p.2) S1
      = S1 := by
    apply foldl_fixed
    intro p hp
    obtain ⟨i, row, rfl, hrow, hL⟩ := mem_updatesOf S1.tail data p hp
    obtain ⟨i', extra, hL', hc⟩ := hWF row hrow
    rw [hL] at hL'
    have hii : i = i' := by injection hL'
    rw [← hii] at hc
    show updRow S1 (i + 2 - 1) row = S1
    have hidx : i + 2 - 1 = i + 1 := rfl
    have hS1 : S1[i + 1]? = some (row ++ extra) := by
      rw [← tail_getElem?]
      exact hc
    have hgd : S1.getD (i + 1) [] = row ++ extra := by
      rw [List.getD_eq_getElem?_getD, hS1]
      rfl
    unfold updRow
    rw [hidx, hgd, List.drop_left]
    exact set_of_getElem? S1 (i + 1) _ hS1
  rw [happ, hfold, hlen]
  simp

/-- A first export over a headerless sheet leaves `headers` as row 1 and the
appended data rows reconciled below it. -/
lemma run1_empty (sheet : Sheet) (headers : List String) (data : List (List String))
    (h : ((sheet.head?.getD []).take 26).length = 0) (hne : headers ≠ [])
    (hv : ValidRows data) (hnd : (data.map dateValueOf).Nodup) :
    ((exportToGoogleSheets sheet headers data).2).head? = some headers ∧
    RowsReconciled ((exportToGoogleSheets sheet headers data).2).tail data := by
  have hr1 : sheet.head?.getD [] = [] := by
    have hmin : min 26 (sheet.head?.getD []).length = 0 := by
      simpa [List.length_take] using h
    exact List.length_eq_zero.mp (by omega)
  have hhne : ¬ headers.length = 0 := fun hl => hne (List.length_eq_zero.mp hl)
  rw [export_empty_path sheet headers data h]
  rw [if_neg hhne, hr1]
  have hdrop : headers ++ List.drop headers.length ([] : List String) = headers := by
    simp
  rw [hdrop]
  constructor
  · rfl
  · show RowsReconciled ((headers :: sheet.tail ++ data).tail) data
    have htl : (headers :: sheet.tail ++ data).tail = sheet.tail ++ data := rfl
    rw [htl]
    intro row hrow
    obtain ⟨j, hj1, hj2⟩ := lastIdx_self data hv hnd row hrow
    refine ⟨sheet.tail.length + j, [], ?_, ?_⟩
    · rw [lastIdx_append, hj1]
    · rw [List.getElem?_append_right (Nat.le_add_right _ _)]
      simpa using hj2

/-- A first export over a sheet whose header matches leaves the header row in
place and every data row reconciled: updated rows keep their positions and
cell keys, appended rows sit below everything else. -/
lemma run1_match (sheet : Sheet) (headers : List String) (data : List (List String))
    (r1 : List String) (hhead : sheet.head? = some r1) (htake : r1.take 26 = headers)
    (hne : headers ≠ []) (hv : ValidRows data) (hnd : (data.map dateValueOf).Nodup) :
    ((exportToGoogleSheets sheet headers data).2).head? = some r1 ∧
    RowsReconciled ((exportToGoogleSheets sheet headers data).2).tail data := by
  have h1 : (sheet.head?.getD []).take 26 = headers := by
    rw [hhead]
    simpa using htake
  have h0 : ¬ ((sheet.head?.getD []).take 26).length = 0 := by
    rw [h1]
    simpa using fun hl => hne (List.length_eq_zero.mp hl)
  rw [export_match_path sheet headers data h0 h1]
  set T0 := sheet.tail with hT0
  set ups := updatesOf T0 data with hups
  set apps := appendsOf T0 data with happs
  set shifted := ups.map (fun p => (p.1 - 1, p.2)) with hshifted
  set F := ups.foldl (fun s p => updRow s (p.1 - 1) p.2) sheet with hF
  have hFdef : F = shifted.foldl (fun s p => updRow s p.1 p.2) sheet := by
    rw [hshifted, List.foldl_map]
  have hndpos : (shifted.map Prod.fst).Nodup := by
    have hmm : shifted.map Prod.fst = ups.map (fun p => p.1 - 1) := by
      rw [hshifted, List.map_map]
      rfl
    rw [hmm]
    exact updatesOf_shift_nodup T0 data hv hnd
  have hFk : ∀ k : ℕ, F[k]? =
      match shifted.find? (fun p => p.1 == k) with
      | some p => sheet[k]?.map (fun old => p.2 ++ old.drop p.2.length)
      | none => sheet[k]? := by
    intro k
    rw [hFdef]
    exact foldl_updRow_getElem? shifted hndpos sheet k
  have hmem_shifted : ∀ p ∈ shifted,
      ∃ i row, p = (i + 1, row) ∧ row ∈ data ∧ lastIdx T0 (dateValueOf row) = some i := by
    intro p hp
    rw [hshifted] at hp
    obtain ⟨q, hq, hqp⟩ := List.mem_map.mp hp
    obtain ⟨i, row, rfl, hrow, hL⟩ := mem_updatesOf T0 data q hq
    exact ⟨i, row, hqp.symm, hrow, hL⟩
  have hF0 : F[0]? = some r1 := by
    have hfind : shifted.find? (fun p => p.1 == 0) = none := by
      rw [List.find?_eq_none]
      intro p hp hbeq
      obtain ⟨i, row, rfl, _, _⟩ := hmem_shifted p hp
      simp at hbeq
    rw [hFk 0, hfind]
    have : sheet[0]? = some r1 := by
      cases sheet with
      | nil => simp at hhead
      | cons a as => simpa using hhead
    exact this
  have hFne : F ≠ [] := by
    intro hFnil
    rw [hFnil] at hF0
    simp at hF0
  constructor
  · rw [head?_append_left F apps hFne]
    exact head?_of_getElem?_zero F r1 hF0
  · rw [tail_append_left F apps hFne]
    -- cell keys of the updated data rows are unchanged
    have hck : ∀ k : ℕ, F.tail[k]?.map cellKey = T0[k]?.map cellKey := by
      intro k
      rw [tail_getElem?, hFk (k + 1)]
      cases hfind : shifted.find? (fun p => p.1 == k + 1) with
      | none =>
        dsimp only
        rw [hT0, tail_getElem?]
      | some p =>
        obtain ⟨i, row, rfl, hrow, hL⟩ := hmem_shifted p (List.mem_of_find?_eq_some hfind)
        have hik : i = k := by
          have := List.find?_some hfind
          simp at this
          omega
        rw [hik] at hL
        obtain ⟨r, hr, hckr⟩ := lastIdx_get T0 (dateValueOf row) k hL
        have hsheetk : sheet[k + 1]? = some r := by
          have hcopy := hr
          rw [hT0, tail_getElem?] at hcopy
          exact hcopy
        dsimp only
        rw [hsheetk, hr]
        obtain ⟨c, hc, h1c, h2c⟩ := hv row hrow
        have hrowne : row ≠ [] := by
          intro hrow0
          rw [hrow0] at hc
          cases hc
        simp only [Option.map_some']
        rw [cellKey_append row (r.drop row.length) hrowne]
        rw [hckr, (cellKey_of_valid row c hc h1c h2c).1,
          (cellKey_of_valid row c hc h1c h2c).2]
    intro row hrow
    cases hL : lastIdx T0 (dateValueOf row) with
    | some i =>
      -- update case: the row was rewritten in place at data-row index i
      obtain ⟨r, hr, hckr⟩ := lastIdx_get T0 (dateValueOf row) i hL
      have hapnone : lastIdx apps (dateValueOf row) = none := by
        apply lastIdx_eq_none
        intro r' hr' hck'
        have hr'mem := (List.mem_filter.mp (happs ▸ hr' :
          r' ∈ appendsOf T0 data)).1
        have hr'none := (List.mem_filter.mp (happs ▸ hr' :
          r' ∈ appendsOf T0 data)).2
        have hdv : dateValueOf r' = dateValueOf row :=
          dateValueOf_of_cellKey r' (dateValueOf row) hck'
        have : r' = row := List.inj_on_of_nodup_map hnd hr'mem hrow hdv
        rw [this] at hr'none
        rw [hL] at hr'none
        simp at hr'none
      have hlast : lastIdx (F.tail ++ apps) (dateValueOf row) = some i := by
        rw [lastIdx_append, hapnone]
        show lastIdx F.tail (dateValueOf row) = some i
        rw [lastIdx_congr F.tail T0 (dateValueOf row) hck]
        exact hL
      have hilt : i < T0.length := by
        by_contra hge
        rw [List.getElem?_eq_none (Nat.le_of_not_lt hge)] at hr
        cases hr
      have hFlen : F.length = sheet.length := by
        rw [hFdef]
        exact foldl_updRow_length shifted sheet
      have hitail : i < F.tail.length := by
        have hsheet : sheet.length = T0.length + 1 := by
          cases sheet with
          | nil => simp at hhead
          | cons a as => simp [hT0]
        have htlen : F.tail.length = F.length - 1 := List.length_tail F
        omega
      have hfindrow : shifted.find? (fun p => p.1 == i + 1) = some (i + 1, row) := by
        apply find?_of_mem_nodup shifted (i + 1) row hndpos
        rw [hshifted]
        refine List.mem_map.mpr ⟨(i + 2, row), ?_, rfl⟩
        rw [hups]
        unfold updatesOf
        refine List.mem_filterMap.mpr ⟨row, hrow, ?_⟩
        rw [hL]
        rfl
      refine ⟨i, r.drop row.length, hlast, ?_⟩
      rw [List.getElem?_append_left hitail, tail_getElem?, hFk (i + 1), hfindrow]
      have hsheet1 : sheet[i + 1]? = some r := by
        rw [← tail_getElem?, ← hT0]
        exact hr
      rw [hsheet1]
      rfl
    | none =>
      -- append case: the row was appended below everything
      have hrowapp : row ∈ apps := by
        rw [happs]
        unfold appendsOf
        exact List.mem_filter.mpr ⟨hrow, by rw [hL]; rfl⟩
      have hvA : ValidRows apps := by
        intro r' hr'
        exact hv r' (List.mem_filter.mp (happs ▸ hr' : r' ∈ appendsOf T0 data)).1
      have hndA : (apps.map dateValueOf).Nodup := by
        have hsub : List.Sublist apps data := by
          rw [happs]
          exact List.filter_sublist data
        exact hnd.sublist (hsub.map dateValueOf)
      obtain ⟨j, hj1, hj2⟩ := lastIdx_self apps hvA hndA row hrowapp
      refine ⟨F.tail.length + j, [], ?_, ?_⟩
      · rw [lastIdx_append, hj1]
      · rw [List.getElem?_append_right (Nat.le_add_right _ _)]
        simpa using hj2

/-- C4 (amended): for data rows keyed by pairwise-distinct non-blank dates
(as built from an `EntryCollection`) under the expected non-empty header of at
most 26 columns, a second export immediately after a successful one changes
nothing in the sheet and reports `rowsAppended = 0` — but it reports
`rowsUpdated = data.length`, not 0: every row whose date is already present is
rewritten in place with identical values, with no content diff. -/
theorem export_idempotent (sheet : Sheet) (headers : List String)
    (data : List (List String)) (hne : headers ≠ []) (hlen : headers.length ≤ 26)
    (hv : ValidRows data) (hnd : (data.map dateValueOf).Nodup)
    (hsucc : (exportToGoogleSheets sheet headers data).1.success = true) :
    exportToGoogleSheets (exportToGoogleSheets sheet headers data).2 headers data
      = (⟨true, 0, data.length, none⟩, (exportToGoogleSheets sheet headers data).2) := by
  by_cases h0 : ((sheet.head?.getD []).take 26).length = 0
  · obtain ⟨hhead, hWF⟩ := run1_empty sheet headers data h0 hne hv hnd
    exact export_second_run _ headers data headers hhead (List.take_of_length_le hlen)
      hne hWF
  · by_cases h1 : (sheet.head?.getD []).take 26 = headers
    · cases hsh : sheet.head? with
      | none =>
        rw [hsh] at h0
        simp at h0
      | some r1 =>
        have htake : r1.take 26 = headers := by
          rw [hsh] at h1
          simpa using h1
        obtain ⟨hhead, hWF⟩ := run1_match sheet headers data r1 hsh htake hne hv hnd
        exact export_second_run _ headers data r1 hhead htake hne hWF
    · exfalso
      rw [export_mismatch_path sheet headers data h0 h1] at hsucc
      simp at hsucc

/-- C4 witness: one entry row exported twice onto an initially empty sheet —
the second run reports 0 appends and 1 update and leaves the sheet as is. -/
theorem export_idempotent_witness :
    exportToGoogleSheets
        (exportToGoogleSheets [] ["Date", "Dreaming"] [["2024-01-01", "0"]]).2
        ["Date", "Dreaming"] [["2024-01-01", "0"]]
      = (⟨true, 0, 1, none⟩,
        (exportToGoogleSheets [] ["Date", "Dreaming"] [["2024-01-01", "0"]]).2) := by
  have hv : ValidRows [["2024-01-01", "0"]] := by
    intro row hrow
    simp only [List.mem_singleton] at hrow
    subst hrow
    exact ⟨"2024-01-01", rfl, by decide, by decide⟩
  have hsucc : (exportToGoogleSheets [] ["Date", "Dreaming"]
      [["2024-01-01", "0"]]).1.success = true := by
    rw [export_empty_path _ _ _ (by decide)]
  exact export_idempotent [] ["Date", "Dreaming"] [["2024-01-01", "0"]]
    (by decide) (by decide) hv (by decide) hsucc

/-- C4 counterexample: exporting the same single-entry collection twice onto
an initially empty sheet leaves the sheet unchanged and reports
`rowsAppended = 0` the second time, but `rowsUpdated = 1`, not 0 — the
exporter rewrites every matching row unconditionally instead of diffing. -/
theorem export_idempotence_counterexample :
    (exportToGoogleSheets [] ["Date", "Dreaming"] [["2024-01-01", "0"]]).1.success
        = true ∧
    (exportToGoogleSheets
        (exportToGoogleSheets [] ["Date", "Dreaming"] [["2024-01-01", "0"]]).2
        ["Date", "Dreaming"] [["2024-01-01", "0"]]).2
      = (exportToGoogleSheets [] ["Date", "Dreaming"] [["2024-01-01", "0"]]).2 ∧
    (exportToGoogleSheets
        (exportToGoogleSheets [] ["Date", "Dreaming"] [["2024-01-01", "0"]]).2
        ["Date", "Dreaming"] [["2024-01-01", "0"]]).1.rowsAppended = 0 ∧
    (exportToGoogleSheets
        (exportToGoogleSheets [] ["Date", "Dreaming"] [["2024-01-01", "0"]]).2
        ["Date", "Dreaming"] [["2024-01-01", "0"]]).1.rowsUpdated ≠ 0 := by
  decide

end Eunoia
